import Mathlib

/-!
Verification of the real-time turn-taking and streaming-protocol layer of the
robot_project repository: the VAD detector (src/voice/vad.py), the dialog
manager's pre-roll buffer, barge-in check and exit-keyword handling
(src/voice/dialog_manager.py), the recognizer client framing (src/voice/asr.py),
the synthesizer receive loop (src/voice/tts.py) and the echo-canceller pipe
reader (src/voice/aec.py).

Modelling conventions: byte strings are `List Nat` (one entry per byte), text
is `List Char` (one entry per Python character).  External collaborators —
the webrtcvad classifier, the gzip codec, `json.loads` — are parameters of the
definitions; a `none` result of such a parameter models a raised exception.
-/

namespace RobotVoice

/-- Python `int.from_bytes(b, 'big')`. -/
def beOfBytes (l : List Nat) : Nat := l.foldl (fun a b => a * 256 + b) 0

/-- Python `n.to_bytes(4, 'big')` (defined for `n < 2^32`). -/
def natTo4BE (n : Nat) : List Nat :=
  [n / 2 ^ 24 % 256, n / 2 ^ 16 % 256, n / 2 ^ 8 % 256, n % 256]

/-- Python `data[i:j]` for nonnegative `i ≤ j`. -/
def pySlice (l : List α) (i j : Nat) : List α := (l.drop i).take (j - i)

/-- Python `data.find(pat)`: index of the first occurrence of `pat` in `data`,
`none` for Python's `-1`. -/
def findSub (pat : List Nat) : List Nat → Option Nat
  | [] => if pat = [] then some 0 else none
  | x :: xs =>
    if pat.isPrefixOf (x :: xs) then some 0
    else (findSub pat xs).map (· + 1)

/-- `collections.deque(maxlen := n).append x`: keep the `n` most recent
elements. -/
def dequeAppend (n : Nat) (x : α) (q : List α) : List α :=
  let q' := q ++ [x]
  if n < q'.length then q'.drop (q'.length - n) else q'

/-! ## VADDetector (src/voice/vad.py) -/

/-- `VADDetector.speech_start_frames` (vad.py line 40). -/
def speech_start_frames : Nat := 10

/-- `VADDetector.speech_end_frames` (vad.py line 41). -/
def speech_end_frames : Nat := 20

/-- The size normalization at the top of `VADDetector.is_speech`
(vad.py lines 58-64): a chunk shorter than the configured frame size is padded
at the end with zero bytes, a longer one is truncated to the frame size. -/
def normalizeChunk (frameSize : Nat) (chunk : List Nat) : List Nat :=
  if chunk.length = frameSize then chunk
  else if chunk.length < frameSize then
    chunk ++ List.replicate (frameSize - chunk.length) 0
  else chunk.take frameSize

/-- `VADDetector.is_speech` (vad.py lines 48-69).  `rawCls` models the
underlying `webrtcvad.Vad.is_speech` classifier; a `none` result models a
raised exception, which the `try/except` of lines 66-69 maps to `False`. -/
def isSpeech (rawCls : List Nat → Option Bool) (frameSize : Nat)
    (chunk : List Nat) : Bool :=
  (rawCls (normalizeChunk frameSize chunk)).getD false

/-- Loop state of `VADDetector.detect_speech_segments` (vad.py lines 87-92):
the ring buffer of `(frame, is_speech)` pairs, the `triggered` flag, the
recorded frames, and the consecutive speech/silence frame counters. -/
structure VADState where
  ring : List (List Nat × Bool)
  triggered : Bool
  voiced : List (List Nat)
  speechCount : Nat
  silenceCount : Nat
deriving DecidableEq, Repr

/-- The initial loop state of `detect_speech_segments`. -/
def initVAD : VADState := ⟨[], false, [], 0, 0⟩

/-- Python `l[:-n]` (vad.py line 147): for positive `n`, everything but the
last `n` elements; for `n = 0` the slice `l[:0]` is empty. -/
def sliceDropLast (l : List α) (n : Nat) : List α :=
  if n = 0 then [] else l.take (l.length - n)

/-- `b''.join(frames)`. -/
def joinFrames (frames : List (List Nat)) : List Nat := frames.flatten

/-- Processing of one VAD frame inside `detect_speech_segments`
(vad.py lines 104-148).  `.error r` models the early `return` with result `r`;
`.ok s` is the updated loop state.  `cls` is the detector's `is_speech`. -/
def stepFrame (cls : List Nat → Bool) (s : VADState) (f : List Nat) :
    Except (Option (List Nat)) VADState :=
  let isSp := cls f
  if s.triggered then
    let voiced := s.voiced ++ [f]
    let ring := dequeAppend speech_end_frames (f, isSp) s.ring
    let silenceCount := if isSp then 0 else s.silenceCount + 1
    let speechCount := if isSp then s.speechCount + 1 else 0
    if speech_end_frames ≤ silenceCount then
      let voicedAudio := joinFrames (sliceDropLast voiced speech_end_frames)
      .error (if voicedAudio ≠ [] then some voicedAudio else none)
    else
      .ok ⟨ring, true, voiced, speechCount, silenceCount⟩
  else
    let ring := dequeAppend speech_end_frames (f, isSp) s.ring
    let speechCount := if isSp then s.speechCount + 1 else 0
    let silenceCount := if isSp then 0 else s.silenceCount + 1
    if speech_start_frames ≤ speechCount then
      .ok ⟨[], true, s.voiced ++ ring.map Prod.fst, 0, 0⟩
    else
      .ok ⟨ring, false, s.voiced, speechCount, silenceCount⟩

/-- The frame loop of `detect_speech_segments` over the frames of the stream
in order; frames shorter than the configured size are skipped
(vad.py line 101). -/
def runFrames (cls : List Nat → Bool) (frameSize : Nat) (s : VADState) :
    List (List Nat) → Except (Option (List Nat)) VADState
  | [] => .ok s
  | f :: rest =>
    if f.length < frameSize then runFrames cls frameSize s rest
    else
      match stepFrame cls s f with
      | .error r => .error r
      | .ok s' => runFrames cls frameSize s' rest

/-- Splitting of one audio chunk into `len(chunk) // frame_size` frames
(vad.py lines 96-99). -/
def chunkFrames (frameSize : Nat) (chunk : List Nat) : List (List Nat) :=
  (List.range (chunk.length / frameSize)).map
    (fun i => (chunk.drop (i * frameSize)).take frameSize)

/-- `VADDetector.detect_speech_segments` (vad.py lines 71-154): the nested
chunk/frame loops process exactly the frames of the streamed chunks in order;
at stream end a triggered recording with a nonempty frame list is returned
unchanged (lines 150-154). -/
def detectSpeechSegments (rawCls : List Nat → Option Bool) (frameSize : Nat)
    (chunks : List (List Nat)) : Option (List Nat) :=
  match runFrames (isSpeech rawCls frameSize) frameSize initVAD
      (chunks.flatMap (chunkFrames frameSize)) with
  | .error r => r
  | .ok s =>
    if s.triggered = true ∧ s.voiced ≠ [] then some (joinFrames s.voiced)
    else none

/-- Length of the run of `p`-satisfying elements at the head of a list. -/
def leadRun (p : α → Bool) : List α → Nat
  | [] => 0
  | x :: xs => if p x then leadRun p xs + 1 else 0

/-- Length of the longest run of consecutive `p`-satisfying elements. -/
def maxRun (p : α → Bool) : List α → Nat
  | [] => 0
  | x :: xs => max (leadRun p (x :: xs)) (maxRun p xs)

/-! ## VoiceDialogManager pre-roll buffer (src/voice/dialog_manager.py) -/

/-- The aggregated chunk classification of `read_and_check` inside
`_wait_for_speech_start` (dialog_manager.py lines 164-187): with a configured
frame size the chunk is split into frames and at least half of the full frames
must be speech (`speech_votes / total_votes >= 0.5`, exact on these integer
counts as `total ≤ 2 * votes`); with no frame size (`if not frame_size`) the
whole chunk gets a single classifier call. -/
def majorityHalf (cls : List Nat → Bool) (frameSize : Nat)
    (chunk : List Nat) : Bool :=
  if frameSize = 0 then cls chunk
  else
    let frames := chunkFrames frameSize chunk
    decide (frames.length ≠ 0 ∧ frames.length ≤ 2 * (frames.filter cls).length)

/-- `VoiceDialogManager._wait_for_speech_start` (dialog_manager.py lines
153-215) over a list of capture reads: a `none` read models a raised read
(mapped to `(None, False)`), `some c` the chunk read.  Every truthy chunk is
appended to the pre-roll buffer, which keeps at most `pre_buffer_max = 15`
entries (lines 160-162, 199-202); onset is confirmed after
`speech_threshold = 3` consecutive speech-classified reads, returning the
pre-roll buffer (lines 204-207).  Read exhaustion models the loop ending via
`running`/`is_speaking` (returning `False, []`). -/
def waitForSpeechStart (cls : List Nat → Bool) (frameSize : Nat) :
    List (Option (List Nat)) → List (List Nat) → Nat →
      Bool × List (List Nat)
  | [], _pre, _consec => (false, [])
  | r :: rest, pre, consec =>
    let pre' := match r with
      | some c => if c ≠ [] then dequeAppend 15 c pre else pre
      | none => pre
    let isSp := match r with
      | some c => majorityHalf cls frameSize c
      | none => false
    if isSp then
      if 3 ≤ consec + 1 then (true, pre')
      else waitForSpeechStart cls frameSize rest pre' (consec + 1)
    else waitForSpeechStart cls frameSize rest pre' 0

/-! ## EcEchoCanceller.read_capture (src/voice/aec.py) -/

/-- The accumulation loop of `EcEchoCanceller.read_capture`
(aec.py lines 157-173).  `supply` lists what the non-blocking FIFO holds at
each successive `os.read` attempt (`[]` models `EAGAIN` or an empty read, both
of which sleep and retry); `os.read(fd, k)` returns at most `k` bytes,
modelled by `take`; each read requests `min_bytes - total`.  Supply exhaustion
models the `timeout_s` deadline elapsing.  Returns the collected bytes and the
number of `os.read` calls made. -/
def readCaptureLoop (minBytes : Nat) :
    List (List Nat) → Nat → List Nat × Nat
  | [], _total => ([], 0)
  | avail :: rest, total =>
    if total < minBytes then
      let data := avail.take (minBytes - total)
      if data = [] then
        let r := readCaptureLoop minBytes rest total
        (r.1, r.2 + 1)
      else
        let r := readCaptureLoop minBytes rest (total + data.length)
        (data ++ r.1, r.2 + 1)
    else ([], 0)

/-- `EcEchoCanceller.read_capture` (aec.py lines 150-173): a disabled
canceller returns `b""` at once (line 151-152) without any pipe read. -/
def readCapture (enabled : Bool) (minBytes : Nat)
    (supply : List (List Nat)) : List Nat × Nat :=
  if enabled then readCaptureLoop minBytes supply 0 else ([], 0)

/-! ## VoiceDialogManager._handle_speech (src/voice/dialog_manager.py) -/

/-- `self.exit_keywords` (dialog_manager.py line 69). -/
def exitKeywords : List (List Char) :=
  ["退出".data, "再见".data, "拜拜".data, "结束".data]

/-- Observable outcome of one `VoiceDialogManager._handle_speech` call
(dialog_manager.py lines 319-356). -/
structure HandleOutcome where
  /-- the turn was delegated to `_handle_name_response` (line 325) -/
  toNameHandler : Bool
  /-- the argument of the general conversation call `brain.chat(user_text, …)`
  of line 350, when that call happened -/
  generalChatArg : Option (List Char)
  /-- the farewell fetch `brain.chat("再见", …)` of line 343 happened -/
  farewellFetched : Bool
  /-- the `_speak` calls made, with their `interruptible` flag -/
  spoken : List (List Char × Bool)
  /-- the value of `self.running` afterwards (line 346 sets it to `False`) -/
  running : Bool
deriving DecidableEq

/-- `VoiceDialogManager._handle_speech`, abstracting the collaborators:
`chatFn` models `brain.chat` (query text to reply text), `awaitingName` the
`self.awaiting_name` flag on entry, and `asksName` the case in which
`_identify_speaker` found an unknown voice and entered the name-elicitation
flow (lines 324-334, 384-389).  Exit detection is
`any(kw in user_text for kw in self.exit_keywords)` (line 342): Python's
substring test is list-infix on the characters. -/
def handleSpeech (chatFn : List Char → List Char)
    (awaitingName asksName : Bool) (userText : List Char) : HandleOutcome :=
  if awaitingName then ⟨true, none, false, [], true⟩
  else if asksName then
    ⟨false, none, false,
      [("你好呀~我好像还不认识你呢，你叫什么名字呀？".data, false)], true⟩
  else if exitKeywords.any (fun kw => decide (kw <:+: userText)) then
    ⟨false, none, true, [(chatFn "再见".data, false)], false⟩
  else
    ⟨false, some userText, false, [(chatFn userText, true)], true⟩

/-! ## VoiceDialogManager barge-in and playback (src/voice/dialog_manager.py) -/

/-- Vote contribution of one capture read in `_barge_in_check`
(dialog_manager.py lines 584-603): an empty read is skipped; with no
configured frame size the whole chunk gets one vote; otherwise every full
frame of the chunk is classified. -/
def chunkVotes (cls : List Nat → Bool) (frameSize : Nat)
    (chunk : List Nat) : Nat × Nat :=
  if chunk = [] then (0, 0)
  else if frameSize = 0 then (if cls chunk then 1 else 0, 1)
  else
    let frames := chunkFrames frameSize chunk
    ((frames.filter cls).length, frames.length)

/-- `VoiceDialogManager._barge_in_check` (dialog_manager.py lines 562-608)
given the two capture reads of its sampling loop: true when at least 60% of
the sampled frames are speech (`votes / total >= 0.6`, exact on these integer
counts as `3 * total ≤ 5 * votes`), false when nothing was sampled. -/
def bargeInCheck (cls : List Nat → Bool) (frameSize : Nat)
    (c1 c2 : List Nat) : Bool :=
  let v1 := chunkVotes cls frameSize c1
  let v2 := chunkVotes cls frameSize c2
  let votes := v1.1 + v2.1
  let total := v1.2 + v2.2
  if total = 0 then false else decide (3 * total ≤ 5 * votes)

/-- Observable trace of the `_speak` playback loop. -/
structure SpeakTrace where
  /-- the buffers handed to `audio_device.play_audio`, in order -/
  played : List (List Nat)
  /-- how many times `_barge_in_check` ran -/
  checks : Nat
  /-- playback was aborted by a positive barge-in check (line 544 `break`) -/
  interrupted : Bool
  /-- synthesis chunks left unconsumed by the abort -/
  remaining : List (List Nat)
deriving DecidableEq

/-- The playback loop of `VoiceDialogManager._speak` (dialog_manager.py lines
523-560): synthesis chunks accumulate in a buffer flushed to
`audio_device.play_audio` at `buffer_threshold = 3200` bytes; when the reply
is interruptible, the echo-cancellation bridge is enabled and the capture
stream is live, `_barge_in_check` runs after each buffered write and a
positive check breaks out, leaving the rest of the stream unconsumed; at
stream end a nonempty leftover buffer is played.  `captures k` gives the two
capture reads of the k-th barge-in check. -/
def speakLoop (cls : List Nat → Bool) (frameSize : Nat)
    (interruptible aecEnabled streamLive : Bool)
    (captures : Nat → List Nat × List Nat) :
    List (List Nat) → List Nat → Nat → SpeakTrace
  | [], buf, _k => ⟨if buf ≠ [] then [buf] else [], 0, false, []⟩
  | c :: rest, buf, k =>
    let buf' := buf ++ c
    if 3200 ≤ buf'.length then
      if interruptible && aecEnabled && streamLive then
        if bargeInCheck cls frameSize (captures k).1 (captures k).2 then
          ⟨[buf'], 1, true, rest⟩
        else
          let t := speakLoop cls frameSize interruptible aecEnabled streamLive
            captures rest [] (k + 1)
          ⟨buf' :: t.played, t.checks + 1, t.interrupted, t.remaining⟩
      else
        let t := speakLoop cls frameSize interruptible aecEnabled streamLive
          captures rest [] k
        ⟨buf' :: t.played, t.checks, t.interrupted, t.remaining⟩
    else speakLoop cls frameSize interruptible aecEnabled streamLive
      captures rest buf' k

/-! ## VolcengineTTS.synthesize_stream receive loop (src/voice/tts.py) -/

/-- Effect of one received websocket message on the `synthesize_stream`
receive loop. -/
inductive TtsStep
  /-- an audio chunk is yielded (tts.py line 257) -/
  | yield (audio : List Nat)
  /-- the loop continues with the next receive -/
  | cont
  /-- the loop is left by `break` -/
  | stop
deriving DecidableEq

/-- One iteration of the `synthesize_stream` receive loop
(tts.py lines 218-335).  `jsonLoads` models
`json.loads(bytes.decode('utf-8'))` on the JSON-frame payload; `none` models a
raised exception, which the surrounding `try/except` turns into a plain
continue — in particular the `break` for `event = 152` sits inside that
`try`.  Message type is the high nibble of byte 1, flags the low nibble (lines
226-227); the audio branch (`msg_type = 0xB`) never breaks regardless of
flags (lines 231-261); the error branch (`msg_type = 0xF`) always breaks
(lines 264-283); the JSON branch (`msg_type = 0x9`) breaks only on
`event = 152` (lines 286-329). -/
def ttsStep {J : Type} (jsonLoads : List Nat → Option J) (r : List Nat) :
    TtsStep :=
  if r.length < 4 then .cont
  else
    let b1 := r.getD 1 0
    let msg_type := (b1 >>> 4) &&& 0xF
    if msg_type = 0xB then
      if r.length < 12 then .cont
      else
        let sidLen := beOfBytes (pySlice r 8 12)
        let off := 12 + sidLen
        if r.length < off + 4 then .cont
        else
          let ps := beOfBytes (pySlice r off (off + 4))
          let audio := pySlice r (off + 4) (off + 4 + ps)
          if audio ≠ [] then .yield audio else .cont
    else if msg_type = 0xF then .stop
    else if msg_type = 0x9 then
      let event := beOfBytes (pySlice r 4 8)
      if r.length < 12 then .cont
      else
        let sidLen := beOfBytes (pySlice r 8 12)
        let off := 12 + sidLen
        if r.length < off + 4 then .cont
        else
          let ps := beOfBytes (pySlice r off (off + 4))
          let jsonData := pySlice r (off + 4) (off + 4 + ps)
          match jsonLoads jsonData with
          | none => .cont
          | some _ => if event = 152 then .stop else .cont
    else .cont

/-- The `synthesize_stream` receive loop over the incoming messages: the audio
chunks yielded in order, whether the loop was left by `break`, and the
messages still pending (unconsumed) when it was.  Message exhaustion models
the 30s receive timeout / connection close, which also leave the loop. -/
def ttsRecvLoop {J : Type} (jsonLoads : List Nat → Option J) :
    List (List Nat) → List (List Nat) × Bool × List (List Nat)
  | [] => ([], false, [])
  | r :: rest =>
    match ttsStep jsonLoads r with
    | .stop => ([], true, rest)
    | .yield a =>
      let t := ttsRecvLoop jsonLoads rest
      (a :: t.1, t.2.1, t.2.2)
    | .cont => ttsRecvLoop jsonLoads rest

/-- A server frame in the session envelope documented in tts.py (lines 232 and
288): header, 4-byte event, 4-byte session-id length, session id, 4-byte
payload length, payload. -/
def mkSessionFrame (msgType msgFlags event : Nat) (sid payload : List Nat) :
    List Nat :=
  [0x11, 16 * msgType + msgFlags, 0, 0] ++ natTo4BE event ++
    natTo4BE sid.length ++ sid ++ natTo4BE payload.length ++ payload

/-! ## VolcengineASR framing and parsing (src/voice/asr.py) -/

/-- Abstract lossless compressor standing for Python's `gzip` module:
`compress` models `gzip.compress`, `decompress` models `gzip.decompress` with
`none` for a raised exception. -/
structure Codec where
  compress : List Nat → List Nat
  decompress : List Nat → Option (List Nat)

/-- `VolcengineASR._build_header` (asr.py lines 116-130). -/
def asrBuildHeader (msgType msgFlags serialization compression : Nat) :
    List Nat :=
  [0x11, (msgType <<< 4) ||| msgFlags, (serialization <<< 4) ||| compression,
    0x00]

/-- `VolcengineASR._build_full_request` (asr.py lines 132-172): header for a
full client request (type 1, JSON serialization, gzip compression), 4-byte
big-endian length of the compressed payload, compressed payload.  `cfgBytes`
stands for the UTF-8 JSON configuration `json.dumps(payload).encode()`. -/
def buildFullRequest (gz : Codec) (cfgBytes : List Nat) : List Nat :=
  let compressed := gz.compress cfgBytes
  asrBuildHeader 1 0 1 1 ++ natTo4BE compressed.length ++ compressed

/-- `VolcengineASR._build_audio_request` (asr.py lines 174-188): header for an
audio-only request (type 2, flag `0x02` on the last chunk, no serialization,
gzip compression), 4-byte length, compressed audio. -/
def buildAudioRequest (gz : Codec) (audio : List Nat) (isLast : Bool) :
    List Nat :=
  let compressed := gz.compress audio
  asrBuildHeader 2 (if isLast then 2 else 0) 0 1 ++
    natTo4BE compressed.length ++ compressed

/-- Result of `VolcengineASR._parse_response`. -/
inductive PResult (J : Type)
  /-- the error dict for data shorter than 4 bytes (asr.py line 193) -/
  | errorShort
  /-- a dict produced by `json.loads` -/
  | json (v : J)
  /-- the fallback dict of line 241 with the parsed type nibble and the raw
  bytes after the computed header size -/
  | rawFallback (msgType : Nat) (raw : List Nat)
deriving DecidableEq

/-- `VolcengineASR._parse_response` (asr.py lines 190-241).  `tryJson` models
the brace-matching strategy of lines 199-215 applied to the suffix of the
data starting at the first `{` byte (UTF-8 decode with errors ignored, brace
counting, `json.loads`); `jsonLoads` models `json.loads(b.decode('utf-8'))`;
`none` models a raised exception.  Note that line 195 takes the *low* nibble
of byte 1 as `msg_type` and line 196 derives the header size from its high
nibble. -/
def parseResponse {J : Type} (gz : Codec)
    (tryJson jsonLoads : List Nat → Option J) (data : List Nat) : PResult J :=
  if data.length < 4 then .errorShort
  else
    let msg_type := data.getD 1 0 &&& 0x0F
    let header_size := ((data.getD 1 0 >>> 4) &&& 0x0F) * 4
    let strat3 : PResult J :=
      if header_size + 4 < data.length then
        let payload_size := beOfBytes (pySlice data header_size (header_size + 4))
        if payload_size < data.length ∧ 0 < payload_size then
          let payload :=
            pySlice data (header_size + 4) (header_size + 4 + payload_size)
          match gz.decompress payload with
          | some dec =>
            match jsonLoads dec with
            | some v => .json v
            | none =>
              match jsonLoads payload with
              | some v => .json v
              | none => .rawFallback msg_type (data.drop header_size)
          | none =>
            match jsonLoads payload with
            | some v => .json v
            | none => .rawFallback msg_type (data.drop header_size)
        else .rawFallback msg_type (data.drop header_size)
      else .rawFallback msg_type (data.drop header_size)
    let strat2 : PResult J :=
      match findSub [0x1f, 0x8b, 0x08] data with
      | some gp =>
        match gz.decompress (data.drop gp) with
        | some dec =>
          match jsonLoads dec with
          | some v => .json v
          | none => strat3
        | none => strat3
      | none => strat3
    match findSub [0x7b] data with
    | some js =>
      match tryJson (data.drop js) with
      | some v => .json v
      | none => strat2
    | none => strat2

/-- The payload bytes a parse result carries: the raw field of the fallback
dict, nothing for JSON or error results.  Used to state the audio round-trip
claim. -/
def PResult.rawBytes {J : Type} : PResult J → Option (List Nat)
  | .rawFallback _ raw => some raw
  | _ => none

/-- A minimal codec with the gzip surface properties the parser relies on —
output prefixed with the magic bytes `1f 8b 08`, `decompress` inverting
`compress` — used to instantiate the abstract codec at concrete inputs. -/
def gzToy : Codec :=
  ⟨fun x => 31 :: 139 :: 8 :: x,
    fun y => if y.take 3 = [31, 139, 8] then some (y.drop 3) else none⟩

/-! ## VolcengineASR.recognize_realtime (src/voice/asr.py) -/

/-- One websocket receive outcome inside `recognize_realtime`. -/
inductive RecvEvent
  /-- `ws.recv()` returned data -/
  | msg (data : List Nat)
  /-- `asyncio.wait_for` timed out (10s on the first receive, 15s later) -/
  | timeout
  /-- the connection closed -/
  | closed
deriving DecidableEq

/-- `ASRResult` (asr.py lines 22-27) as far as `recognize_realtime` consumes
it; `is_end` always equals `is_final` (line 276). -/
structure ASRResultT (T : Type) where
  text : T
  is_final : Bool

/-- The `"error" in resp_data` check on the parsed first acknowledgment
(asr.py line 326): short data yields the error dict of line 193; for a parsed
JSON dict the abstract `hasErrKey` decides; the fallback dict of line 241 has
no `error` key. -/
def ackError {J : Type} (gz : Codec) (tryJson jsonLoads : List Nat → Option J)
    (hasErrKey : J → Bool) (ack : List Nat) : Bool :=
  match parseResponse gz tryJson jsonLoads ack with
  | .errorShort => true
  | .json v => hasErrKey v
  | .rawFallback _ _ => false

/-- The `receive_results` loop (asr.py lines 355-379) together with the tail
of `recognize_realtime`: fold over the receive outcomes tracking
`final_text`.  `extract` models `_parse_response` followed by
`_extract_result` (`none` when no result is extracted, which continues the
loop).  A 15s timeout sets the stop event and returns (lines 371-374), a
close returns (lines 375-376); either way `recognize_realtime` then returns
the accumulated `final_text`.  Outcome exhaustion stands for a session still
waiting on the socket; real sessions always end in a final result, timeout or
close. -/
def recvResults {T : Type} (extract : List Nat → Option (ASRResultT T))
    (finalText : T) : List RecvEvent → T
  | [] => finalText
  | .timeout :: _ => finalText
  | .closed :: _ => finalText
  | .msg m :: rest =>
    match extract m with
    | none => recvResults extract finalText rest
    | some res =>
      if res.is_final then res.text else recvResults extract res.text rest

/-- `VolcengineASR.recognize_realtime` (asr.py lines 279-403) as a function of
its receive outcomes.  A timeout or close on the *first* receive (the 10s
wait for the server acknowledgment, line 324) raises and is caught by the
outer handler (lines 395-397), returning `None`; an acknowledgment whose
parse contains an `error` key returns `None` (lines 326-328); afterwards the
receive loop runs and its accumulated `final_text` (initially the empty
text) is returned. -/
def recognizeRealtime {J T : Type} (gz : Codec)
    (tryJson jsonLoads : List Nat → Option J) (hasErrKey : J → Bool)
    (extract : List Nat → Option (ASRResultT T)) (emptyText : T) :
    List RecvEvent → Option T
  | [] => none
  | .timeout :: _ => none
  | .closed :: _ => none
  | .msg ack :: rest =>
    if ackError gz tryJson jsonLoads hasErrKey ack then none
    else some (recvResults extract emptyText rest)

/-- A deque with `maxlen = n` never grows beyond `n` elements. -/
theorem dequeAppend_length_le {n : Nat} {q : List α} (x : α)
    (h : q.length ≤ n) : (dequeAppend n x q).length ≤ n := by
  unfold dequeAppend
  dsimp only
  split
  · simp; omega
  · next hn => simpa using Nat.le_of_not_lt hn

/-- The pre-roll buffer length is invariant under one `_wait_for_speech_start`
read cycle. -/
theorem wait_pre_le (cls : List Nat → Bool) (fs : Nat) :
    ∀ (reads : List (Option (List Nat))) (pre : List (List Nat)) (consec : Nat),
      pre.length ≤ 15 →
      ((waitForSpeechStart cls fs reads pre consec).2).length ≤ 15 := by
  intro reads
  induction reads with
  | nil => intro pre consec _; simp [waitForSpeechStart]
  | cons r rest ih =>
    intro pre consec h
    rw [waitForSpeechStart.eq_def]
    have hp : ∀ c : List Nat,
        (if c ≠ [] then dequeAppend 15 c pre else pre).length ≤ 15 := by
      intro c
      split
      · exact dequeAppend_length_le c h
      · exact h
    cases r with
    | none =>
      dsimp only
      split
      · split
        · simpa using h
        · exact ih pre _ h
      · exact ih pre _ h
    | some c =>
      dsimp only
      split
      · split
        · simpa using hp c
        · exact ih _ _ (hp c)
      · exact ih _ _ (hp c)

/-- C6: the pre-roll ring buffer retained while waiting for turn onset in
`_wait_for_speech_start` — whose contents `_realtime_recognize` prepends to
the turn's audio once onset is confirmed — holds at most 15 chunks under the
default configuration (`pre_buffer_max = 15`). -/
theorem pre_buffer_le_fifteen (cls : List Nat → Bool) (frameSize : Nat)
    (reads : List (Option (List Nat))) :
    ((waitForSpeechStart cls frameSize reads [] 0).2).length ≤ 15 :=
  wait_pre_le cls frameSize reads [] 0 (by simp)

/-- Each iteration of the `read_capture` loop collects at most the bytes still
missing from `min_bytes`. -/
theorem readCaptureLoop_le (minBytes : Nat) :
    ∀ (supply : List (List Nat)) (total : Nat), total ≤ minBytes →
      total + ((readCaptureLoop minBytes supply total).1).length ≤ minBytes := by
  intro supply
  induction supply with
  | nil => intro t h; simpa [readCaptureLoop] using h
  | cons avail rest ih =>
    intro t h
    rw [readCaptureLoop]
    split
    · dsimp only
      split
      · simpa using ih t h
      · have hlen : (avail.take (minBytes - t)).length ≤ minBytes - t := by
          simp [List.length_take]
        have hrec := ih (t + (avail.take (minBytes - t)).length) (by omega)
        simp only [List.length_append]
        omega
    · simpa using h

/-- C10: `EcEchoCanceller.read_capture` returns at most `min_bytes` bytes —
each `os.read` requests only `min_bytes` minus the bytes already collected —
and a disabled canceller returns the empty byte string without a single pipe
read. -/
theorem read_capture_at_most_min_bytes (enabled : Bool) (minBytes : Nat)
    (supply : List (List Nat)) :
    ((readCapture enabled minBytes supply).1).length ≤ minBytes ∧
    readCapture false minBytes supply = ([], 0) := by
  refine ⟨?_, rfl⟩
  unfold readCapture
  split
  · have := readCaptureLoop_le minBytes supply 0 (by omega)
    omega
  · simp

/-- C7: For every input chunk, `is_speech` hands the underlying classifier a
buffer of exactly the configured frame size: a shorter chunk is zero-padded at
the end, a longer chunk is truncated, and a chunk that already has the frame
size is passed through unchanged (so normalization never changes the bytes the
callers store or forward). -/
theorem is_speech_exact_frame (frameSize : Nat) (chunk : List Nat) :
    (normalizeChunk frameSize chunk).length = frameSize ∧
    (chunk.length ≤ frameSize →
      normalizeChunk frameSize chunk =
        chunk ++ List.replicate (frameSize - chunk.length) 0) ∧
    (frameSize ≤ chunk.length →
      normalizeChunk frameSize chunk = chunk.take frameSize) ∧
    (chunk.length = frameSize → normalizeChunk frameSize chunk = chunk) ∧
    (∀ rawCls : List Nat → Option Bool,
      isSpeech rawCls frameSize chunk =
        (rawCls (normalizeChunk frameSize chunk)).getD false) := by
  unfold normalizeChunk isSpeech
  refine ⟨?_, ?_, ?_, ?_, fun _ => rfl⟩
  · split
    · omega
    · split
      · simp; omega
      · simp; omega
  · intro h
    split
    · next he => simp [he]
    · split
      · rfl
      · omega
  · intro h
    split
    · next he => simp [he]
    · split
      · omega
      · rfl
  · intro h
    simp [h]

/-- Instance of `is_speech_exact_frame` at a concrete short chunk. -/
theorem is_speech_exact_frame_inst :
    normalizeChunk 4 [7, 7] = [7, 7, 0, 0] ∧ (normalizeChunk 4 [7, 7]).length = 4 := by
  have h := is_speech_exact_frame 4 [7, 7]
  exact ⟨by simpa using h.2.1 (by decide), h.1⟩

/-- C9: `VADDetector.is_speech` is total: it is a function into `Bool` defined
on every byte string (the definition above is structurally total), an
exception raised by the underlying classifier is mapped to `False`, and when
the classifier returns a verdict that verdict is passed through. -/
theorem is_speech_total (rawCls : List Nat → Option Bool) (frameSize : Nat)
    (chunk : List Nat) :
    (rawCls (normalizeChunk frameSize chunk) = none →
      isSpeech rawCls frameSize chunk = false) ∧
    (∀ b : Bool, rawCls (normalizeChunk frameSize chunk) = some b →
      isSpeech rawCls frameSize chunk = b) := by
  constructor
  · intro h; simp [isSpeech, h]
  · intro b h; simp [isSpeech, h]

/-- Instance of `is_speech_total`: an always-raising classifier yields `false`,
also on the empty byte string. -/
theorem is_speech_total_inst :
    isSpeech (fun _ => none) 320 [] = false :=
  (is_speech_total (fun _ => none) 320 []).1 rfl

/-- Big-endian 4-byte round trip. -/
theorem beOfBytes_natTo4BE {n : Nat} (h : n < 2 ^ 32) :
    beOfBytes (natTo4BE n) = n := by
  simp only [beOfBytes, natTo4BE, List.foldl]
  omega

/-- Nibble extraction from a packed `(msg_type << 4) | msg_flags` byte. -/
theorem byte_hi_lo {m f : Nat} (hm : m < 16) (hf : f < 16) :
    ((16 * m + f) >>> 4) &&& 15 = m ∧ (16 * m + f) &&& 15 = f := by
  have h4 : (15 : Nat) = 2 ^ 4 - 1 := rfl
  constructor
  · rw [Nat.shiftRight_eq_div_pow, h4, Nat.and_pow_two_sub_one_eq_mod]
    omega
  · rw [h4, Nat.and_pow_two_sub_one_eq_mod]
    omega

/-- A Python slice that starts right after `pre` and spans `mid` returns
`mid`. -/
theorem pySlice_eq_of (pre mid post : List α) (i j : Nat)
    (hi : pre.length = i) (hj : j = i + mid.length) :
    pySlice (pre ++ (mid ++ post)) i j = mid := by
  subst hi
  subst hj
  unfold pySlice
  rw [List.drop_left]
  have h : pre.length + mid.length - pre.length = mid.length := by omega
  rw [h, List.take_left]

/-- Length of a session frame. -/
theorem mkSessionFrame_length (msgType msgFlags event : Nat)
    (sid payload : List Nat) :
    (mkSessionFrame msgType msgFlags event sid payload).length
      = 16 + sid.length + payload.length := by
  simp [mkSessionFrame, natTo4BE]
  omega

/-- Byte 1 of a session frame is the packed type/flags byte. -/
theorem mkSessionFrame_getD1 (msgType msgFlags event : Nat)
    (sid payload : List Nat) :
    (mkSessionFrame msgType msgFlags event sid payload).getD 1 0
      = 16 * msgType + msgFlags := rfl

/-- The event slice of a session frame. -/
theorem mkSessionFrame_slice_event (msgType msgFlags event : Nat)
    (sid payload : List Nat) :
    pySlice (mkSessionFrame msgType msgFlags event sid payload) 4 8
      = natTo4BE event := by
  have h : mkSessionFrame msgType msgFlags event sid payload =
      [0x11, 16 * msgType + msgFlags, 0, 0] ++ (natTo4BE event ++
        (natTo4BE sid.length ++ (sid ++ (natTo4BE payload.length ++ payload)))) := by
    simp [mkSessionFrame]
  rw [h]
  exact pySlice_eq_of _ _ _ _ _ rfl rfl

/-- The session-id-length slice of a session frame. -/
theorem mkSessionFrame_slice_sidLen (msgType msgFlags event : Nat)
    (sid payload : List Nat) :
    pySlice (mkSessionFrame msgType msgFlags event sid payload) 8 12
      = natTo4BE sid.length := by
  have h : mkSessionFrame msgType msgFlags event sid payload =
      ([0x11, 16 * msgType + msgFlags, 0, 0] ++ natTo4BE event) ++
        (natTo4BE sid.length ++ (sid ++ (natTo4BE payload.length ++ payload))) := by
    simp [mkSessionFrame]
  rw [h]
  exact pySlice_eq_of _ _ _ _ _ (by simp [natTo4BE]) rfl

/-- The payload-length slice of a session frame. -/
theorem mkSessionFrame_slice_psLen (msgType msgFlags event : Nat)
    (sid payload : List Nat) :
    pySlice (mkSessionFrame msgType msgFlags event sid payload)
        (12 + sid.length) (12 + sid.length + 4) = natTo4BE payload.length := by
  have h : mkSessionFrame msgType msgFlags event sid payload =
      ([0x11, 16 * msgType + msgFlags, 0, 0] ++ (natTo4BE event ++
          (natTo4BE sid.length ++ sid))) ++
        (natTo4BE payload.length ++ payload) := by
    simp [mkSessionFrame]
  rw [h]
  have hc : natTo4BE payload.length ++ payload =
      natTo4BE payload.length ++ (payload ++ []) := by simp
  rw [hc]
  exact pySlice_eq_of _ _ _ _ _ (by simp [natTo4BE]; omega) (by simp [natTo4BE])

/-- The payload slice of a session frame. -/
theorem mkSessionFrame_slice_payload (msgType msgFlags event : Nat)
    (sid payload : List Nat) :
    pySlice (mkSessionFrame msgType msgFlags event sid payload)
        (12 + sid.length + 4) (12 + sid.length + 4 + payload.length)
      = payload := by
  have h : mkSessionFrame msgType msgFlags event sid payload =
      ([0x11, 16 * msgType + msgFlags, 0, 0] ++ (natTo4BE event ++
          (natTo4BE sid.length ++ (sid ++ natTo4BE payload.length)))) ++
        (payload ++ []) := by
    simp [mkSessionFrame]
  rw [h]
  exact pySlice_eq_of _ _ _ _ _ (by simp [natTo4BE]; omega) rfl

/-- Evaluation of the receive-loop step on a well-formed full-JSON server
response (`msg_type = 0x9`) whose payload parses: only `event = 152` breaks. -/
theorem ttsStep_json {J : Type} (jl : List Nat → Option J) (flags e : Nat)
    (hf : flags < 16) (he : e < 2 ^ 32) (sid payload : List Nat)
    (hsid : sid.length < 2 ^ 32) (hpl : payload.length < 2 ^ 32)
    (v : J) (hjson : jl payload = some v) :
    ttsStep jl (mkSessionFrame 9 flags e sid payload) =
      if e = 152 then TtsStep.stop else TtsStep.cont := by
  have hlen := mkSessionFrame_length 9 flags e sid payload
  unfold ttsStep
  rw [if_neg (by omega : ¬(mkSessionFrame 9 flags e sid payload).length < 4)]
  dsimp only
  rw [mkSessionFrame_getD1, (byte_hi_lo (by omega) hf).1]
  rw [if_neg (by decide : ¬(9 : Nat) = 0xB)]
  rw [if_neg (by decide : ¬(9 : Nat) = 0xF)]
  rw [if_pos (by decide : (9 : Nat) = 0x9)]
  rw [mkSessionFrame_slice_event, beOfBytes_natTo4BE he]
  rw [if_neg (by omega : ¬(mkSessionFrame 9 flags e sid payload).length < 12)]
  rw [mkSessionFrame_slice_sidLen, beOfBytes_natTo4BE hsid]
  rw [if_neg (by omega :
    ¬(mkSessionFrame 9 flags e sid payload).length < 12 + sid.length + 4)]
  rw [mkSessionFrame_slice_psLen, beOfBytes_natTo4BE hpl]
  rw [mkSessionFrame_slice_payload, hjson]

/-- C2: in the `synthesize_stream` receive loop, a full-JSON response frame
(`msg_type = 0x9`) with event 152 (SessionFinished) terminates the chunk
stream even when more messages are pending; an audio-response frame
(`msg_type = 0xB`) never terminates the stream regardless of its flags; a
sentence-end frame (event 351) never terminates it; and among non-error JSON
frames, event 152 is the only one whose step breaks the loop. -/
theorem tts_session_finished_terminates {J : Type} (jl : List Nat → Option J)
    (flags : Nat) (hf : flags < 16) (sid payload : List Nat)
    (hsid : sid.length < 2 ^ 32) (hpl : payload.length < 2 ^ 32)
    (v : J) (hjson : jl payload = some v) :
    (∀ pending : List (List Nat),
      ttsRecvLoop jl (mkSessionFrame 9 flags 152 sid payload :: pending) =
        ([], true, pending)) ∧
    (∀ r : List Nat, (r.getD 1 0 >>> 4) &&& 0xF = 0xB →
      ttsStep jl r ≠ TtsStep.stop) ∧
    ttsStep jl (mkSessionFrame 9 flags 351 sid payload) = TtsStep.cont ∧
    (∀ r : List Nat, (r.getD 1 0 >>> 4) &&& 0xF = 0x9 →
      ttsStep jl r = TtsStep.stop → beOfBytes (pySlice r 4 8) = 152) := by
  have hstop : ttsStep jl (mkSessionFrame 9 flags 152 sid payload) =
      TtsStep.stop := by
    rw [ttsStep_json jl flags 152 hf (by omega) sid payload hsid hpl v hjson]
    exact if_pos rfl
  refine ⟨?_, ?_, ?_, ?_⟩
  · intro pending
    rw [ttsRecvLoop, hstop]
  · intro r hB
    unfold ttsStep
    dsimp only
    rw [if_pos hB]
    repeat' split
    all_goals simp
  · rw [ttsStep_json jl flags 351 hf (by omega) sid payload hsid hpl v hjson]
    exact if_neg (by decide)
  · intro r h9 hstop'
    have hnB : ¬((r.getD 1 0 >>> 4) &&& 0xF = 0xB) := by rw [h9]; decide
    have hnF : ¬((r.getD 1 0 >>> 4) &&& 0xF = 0xF) := by rw [h9]; decide
    unfold ttsStep at hstop'
    dsimp only at hstop'
    rw [if_neg hnB, if_neg hnF, if_pos h9] at hstop'
    repeat' split at hstop'
    all_goals simp_all

/-- Instance of `tts_session_finished_terminates`: a concrete SessionFinished
frame ends the loop with a pending message left unread. -/
theorem tts_session_finished_terminates_inst :
    ttsRecvLoop (fun b => if b = [123] then some () else none)
        (mkSessionFrame 9 0 152 [65] [123] :: [[9, 9, 9]]) =
      ([], true, [[9, 9, 9]]) :=
  (tts_session_finished_terminates (fun b => if b = [123] then some () else none)
    0 (by decide) [65] [123] (by decide) (by decide) () (by decide)).1 [[9, 9, 9]]

/-- Length of a built request frame. -/
theorem len_built (b1 b2 L : Nat) (comp : List Nat) :
    (17 :: b1 :: b2 :: 0 :: (natTo4BE L ++ comp)).length = 8 + comp.length := by
  simp [natTo4BE]
  omega

/-- Dropping the 8 header-and-size bytes of a built request frame leaves the
compressed payload. -/
theorem drop8_built (b1 b2 L : Nat) (comp : List Nat) :
    (17 :: b1 :: b2 :: 0 :: (natTo4BE L ++ comp)).drop 8 = comp := by
  have h : (17 :: b1 :: b2 :: 0 :: (natTo4BE L ++ comp)) =
      ([17, b1, b2, 0] ++ natTo4BE L) ++ comp := by
    simp [natTo4BE]
  rw [h, List.drop_left' (by simp [natTo4BE])]

/-- In a built request frame whose compressed payload is below `0x1f8b08`
bytes, the first occurrence of the gzip magic `1f 8b 08` is the payload start
at offset 8: the header bytes cannot match and the four big-endian size bytes
would have to spell exactly `0x1f8b08`. -/
theorem findSub_magic_built (b1 b2 L : Nat) (t : List Nat)
    (hL : L < 2067208) :
    findSub [31, 139, 8]
        (17 :: b1 :: b2 :: 0 :: (natTo4BE L ++ (31 :: 139 :: 8 :: t)))
      = some 8 := by
  have hx0 : L / 2 ^ 24 % 256 = 0 := by omega
  have step : ∀ (x : Nat) (xs : List Nat),
      ¬([31, 139, 8].isPrefixOf (x :: xs) = true) →
      findSub [31, 139, 8] (x :: xs) = (findSub [31, 139, 8] xs).map (· + 1) := by
    intro x xs h
    rw [findSub, if_neg h]
  simp only [natTo4BE, hx0, List.cons_append, List.nil_append]
  rw [step _ _ (by simp [List.isPrefixOf])]
  rw [step _ _ (by simp [List.isPrefixOf])]
  rw [step _ _ (by simp [List.isPrefixOf])]
  rw [step _ _ (by simp [List.isPrefixOf])]
  rw [step _ _ (by simp [List.isPrefixOf])]
  rw [step _ _ (by simp [List.isPrefixOf]; omega)]
  rw [step _ _ (by simp [List.isPrefixOf])]
  rw [step _ _ (by simp [List.isPrefixOf])]
  rw [findSub, if_pos (by simp [List.isPrefixOf])]
  simp

/-- `_parse_response` on a built configuration frame recovers the JSON
configuration payload through the gzip-magic strategy. -/
theorem parse_full_ok {J : Type} (gz : Codec)
    (tryJson jsonLoads : List Nat → Option J) (cfg : List Nat) (v : J)
    (hrt : gz.decompress (gz.compress cfg) = some cfg)
    (hmag : ∃ t, gz.compress cfg = 31 :: 139 :: 8 :: t)
    (hlen : (gz.compress cfg).length < 2067208)
    (hstrat1 : ∀ k, tryJson ((buildFullRequest gz cfg).drop k) = none)
    (hjson : jsonLoads cfg = some v) :
    parseResponse gz tryJson jsonLoads (buildFullRequest gz cfg)
      = PResult.json v := by
  obtain ⟨t, ht⟩ := hmag
  have hform : buildFullRequest gz cfg =
      17 :: 16 :: 17 :: 0 ::
        (natTo4BE (gz.compress cfg).length ++ gz.compress cfg) := by
    have hhdr : asrBuildHeader 1 0 1 1 = [17, 16, 17, 0] := by decide
    simp [buildFullRequest, hhdr]
  have hlength : (buildFullRequest gz cfg).length
      = 8 + (gz.compress cfg).length := by
    rw [hform]; exact len_built _ _ _ _
  have hfm : findSub [31, 139, 8] (buildFullRequest gz cfg) = some 8 := by
    rw [ht] at hlen
    rw [hform, ht]
    exact findSub_magic_built _ _ _ t hlen
  have hdrop : (buildFullRequest gz cfg).drop 8 = gz.compress cfg := by
    rw [hform]; exact drop8_built _ _ _ _
  unfold parseResponse
  rw [if_neg (show ¬(buildFullRequest gz cfg).length < 4 by
    rw [hlength]; omega)]
  dsimp only
  cases hfj : findSub [0x7b] (buildFullRequest gz cfg) with
  | some js => simp only [hfj, hstrat1, hfm, hdrop, hrt, hjson]
  | none => simp only [hfj, hfm, hdrop, hrt, hjson]

/-- `_parse_response` on a built audio frame: the brace strategy fails, the
gzip strategy recovers the audio but it is not JSON, and the standard
strategy reads a header size of 8 from the misparsed byte 1 and a giant
payload size from the gzip magic, so the parse falls through to the fallback
dict whose `raw` field is the still-compressed audio and whose `msg_type` is
the flags nibble. -/
theorem parse_audio_raw {J : Type} (gz : Codec)
    (tryJson jsonLoads : List Nat → Option J) (audio : List Nat)
    (isLast : Bool)
    (hrta : gz.decompress (gz.compress audio) = some audio)
    (hmaga : ∃ t, gz.compress audio = 31 :: 139 :: 8 :: t)
    (hlena : (gz.compress audio).length < 2067208)
    (hstrat1a : ∀ k, tryJson ((buildAudioRequest gz audio isLast).drop k) = none)
    (hjaudio : jsonLoads audio = none) :
    parseResponse gz tryJson jsonLoads (buildAudioRequest gz audio isLast)
      = PResult.rawFallback (if isLast then 2 else 0) (gz.compress audio) := by
  obtain ⟨t, ht⟩ := hmaga
  have hform : buildAudioRequest gz audio isLast =
      17 :: (if isLast then 34 else 32) :: 1 :: 0 ::
        (natTo4BE (gz.compress audio).length ++ gz.compress audio) := by
    have hhdr : asrBuildHeader 2 (if isLast then 2 else 0) 0 1 =
        [17, if isLast then 34 else 32, 1, 0] := by
      cases isLast <;> decide
    simp [buildAudioRequest, hhdr]
  have hlength : (buildAudioRequest gz audio isLast).length
      = 8 + (gz.compress audio).length := by
    rw [hform]; exact len_built _ _ _ _
  have hfm : findSub [31, 139, 8] (buildAudioRequest gz audio isLast)
      = some 8 := by
    have hlena' := hlena
    rw [ht] at hlena'
    rw [hform, ht]
    exact findSub_magic_built _ _ _ t hlena'
  have hdrop : (buildAudioRequest gz audio isLast).drop 8
      = gz.compress audio := by
    rw [hform]; exact drop8_built _ _ _ _
  have hgetD : (buildAudioRequest gz audio isLast).getD 1 0
      = if isLast then 34 else 32 := by
    rw [hform]; rfl
  have hhs : (((if isLast then 34 else 32) >>> 4) &&& 0x0F) * 4 = 8 := by
    cases isLast <;> decide
  have hmt : (if isLast then 34 else 32) &&& 0x0F
      = (if isLast then 2 else 0 : Nat) := by
    cases isLast <;> decide
  unfold parseResponse
  rw [if_neg (show ¬(buildAudioRequest gz audio isLast).length < 4 by
    rw [hlength]; omega)]
  dsimp only
  rw [hgetD, hhs, hmt]
  cases hfj : findSub [0x7b] (buildAudioRequest gz audio isLast) <;>
    simp only [hfj, hstrat1a, hfm, hdrop, hrta, hjaudio] <;>
    (by_cases h4 : 8 + 4 < (buildAudioRequest gz audio isLast).length
     · rw [if_pos h4]
       have hcomplen : 4 < (gz.compress audio).length := by omega
       have ht' : ∃ c t', t = c :: t' := by
         cases t with
         | nil =>
           exfalso
           rw [ht] at hcomplen
           simp at hcomplen
         | cons c t' => exact ⟨c, t', rfl⟩
       obtain ⟨c, t', ht'⟩ := ht'
       have hslice : pySlice (buildAudioRequest gz audio isLast) 8 (8 + 4)
           = [31, 139, 8, c] := by
         unfold pySlice
         rw [hdrop, ht, ht']
         rfl
       rw [hslice]
       have hbe : beOfBytes [31, 139, 8, c] = 529205248 + c := by
         simp only [beOfBytes, List.foldl]
       rw [hbe]
       rw [if_neg (by
         intro hcon
         omega)]
     · rw [if_neg h4])

/-- C3 (amended): re-parsing with `_parse_response` the bytes produced by
`_build_full_request` recovers the original JSON configuration payload; for
the bytes produced by `_build_audio_request`, re-parsing does not return the
raw audio itself but the fallback dict whose `msg_type` field is the flags
nibble of byte 1 and whose `raw` field is the still gzip-compressed audio
payload — one further gzip decompression (the round-trip law) recovers the
original audio from that field. -/
theorem asr_frame_reparse {J : Type} (gz : Codec)
    (tryJson jsonLoads : List Nat → Option J) (cfg audio : List Nat)
    (isLast : Bool) (v : J)
    (hrt : gz.decompress (gz.compress cfg) = some cfg)
    (hrta : gz.decompress (gz.compress audio) = some audio)
    (hmag : ∃ t, gz.compress cfg = 31 :: 139 :: 8 :: t)
    (hmaga : ∃ t, gz.compress audio = 31 :: 139 :: 8 :: t)
    (hlen : (gz.compress cfg).length < 2067208)
    (hlena : (gz.compress audio).length < 2067208)
    (hstrat1 : ∀ k, tryJson ((buildFullRequest gz cfg).drop k) = none)
    (hstrat1a : ∀ k, tryJson ((buildAudioRequest gz audio isLast).drop k) = none)
    (hjson : jsonLoads cfg = some v)
    (hjaudio : jsonLoads audio = none) :
    parseResponse gz tryJson jsonLoads (buildFullRequest gz cfg)
        = PResult.json v ∧
    ∃ raw,
      parseResponse gz tryJson jsonLoads (buildAudioRequest gz audio isLast)
          = PResult.rawFallback (if isLast then 2 else 0) raw ∧
      gz.decompress raw = some audio :=
  ⟨parse_full_ok gz tryJson jsonLoads cfg v hrt hmag hlen hstrat1 hjson,
    gz.compress audio,
    parse_audio_raw gz tryJson jsonLoads audio isLast hrta hmaga hlena
      hstrat1a hjaudio,
    hrta⟩

/-- Instance of `asr_frame_reparse` with the toy codec: the configuration
round trip succeeds, the audio parse yields the compressed raw field. -/
theorem asr_frame_reparse_inst :
    parseResponse gzToy (fun _ => (none : Option Unit))
        (fun b => if b = [123] then some () else none)
        (buildFullRequest gzToy [123]) = PResult.json () ∧
    ∃ raw,
      parseResponse gzToy (fun _ => (none : Option Unit))
          (fun b => if b = [123] then some () else none)
          (buildAudioRequest gzToy [7] false)
        = PResult.rawFallback (if false then 2 else 0) raw ∧
      gzToy.decompress raw = some [7] :=
  asr_frame_reparse gzToy (fun _ => (none : Option Unit))
    (fun b => if b = [123] then some () else none) [123] [7] false ()
    (by decide) (by decide) ⟨[123], rfl⟩ ⟨[7], rfl⟩ (by decide) (by decide)
    (fun _ => rfl) (fun _ => rfl) (by decide) (by decide)

/-- C3 counterexample: re-parsing the bytes built by `_build_audio_request`
does **not** recover the original raw audio payload.  At the concrete audio
payload `[0]` (with the gzip-faithful toy codec and a JSON decoder that
fails on non-JSON bytes, as raw PCM is), the parse returns the fallback dict
whose `raw` field holds the gzip-compressed bytes `1f 8b 08 00`, not the
original audio `[0]`. -/
theorem asr_audio_reparse_not_raw :
    (parseResponse gzToy (fun _ => (none : Option Unit)) (fun _ => none)
        (buildAudioRequest gzToy [0] false)).rawBytes ≠ some [0] ∧
    parseResponse gzToy (fun _ => (none : Option Unit)) (fun _ => none)
        (buildAudioRequest gzToy [0] false)
      = PResult.rawFallback 0 [31, 139, 8, 0] := by
  decide

/-- A receive loop in which no message yields a result leaves `final_text`
unchanged. -/
theorem recvResults_no_result {T : Type}
    (extract : List Nat → Option (ASRResultT T)) (cur : T) :
    ∀ evs : List RecvEvent,
      (∀ m, RecvEvent.msg m ∈ evs → extract m = none) →
      recvResults extract cur evs = cur := by
  intro evs
  induction evs with
  | nil => intro _; rfl
  | cons e rest ih =>
    intro h
    cases e with
    | timeout => rfl
    | closed => rfl
    | msg m =>
      rw [recvResults, h m (by simp)]
      exact ih (fun m' hm' => h m' (by simp [hm']))

/-- C8 (amended): in `recognize_realtime` the 10-second timeout on the first
server acknowledgment and the 15-second timeout on each subsequent receive
are both terminal and propagate no error to the caller.  The first-ack
timeout makes the call return `None`; a later receive timeout ends the
session and the call returns the accumulated text — the empty text when no
transcript was received before it, and otherwise the last (possibly partial)
transcript. -/
theorem asr_timeouts_terminal {J T : Type} (gz : Codec)
    (tryJson jsonLoads : List Nat → Option J) (hasErrKey : J → Bool)
    (extract : List Nat → Option (ASRResultT T)) (emptyText : T) :
    (∀ evs, recognizeRealtime gz tryJson jsonLoads hasErrKey extract emptyText
        (RecvEvent.timeout :: evs) = none) ∧
    (∀ ack evs, ackError gz tryJson jsonLoads hasErrKey ack = false →
      (∀ m, RecvEvent.msg m ∈ evs → extract m = none) →
      recognizeRealtime gz tryJson jsonLoads hasErrKey extract emptyText
        (RecvEvent.msg ack :: (evs ++ [RecvEvent.timeout])) = some emptyText) ∧
    (∀ ack m evs t, ackError gz tryJson jsonLoads hasErrKey ack = false →
      extract m = some ⟨t, false⟩ →
      recognizeRealtime gz tryJson jsonLoads hasErrKey extract emptyText
        (RecvEvent.msg ack :: RecvEvent.msg m :: RecvEvent.timeout :: evs)
        = some t) := by
  refine ⟨fun evs => rfl, ?_, ?_⟩
  · intro ack evs hE hN
    rw [recognizeRealtime, if_neg (by simp [hE])]
    have h : recvResults extract emptyText (evs ++ [RecvEvent.timeout])
        = emptyText := by
      refine recvResults_no_result extract emptyText _ (fun m hm => ?_)
      rcases List.mem_append.mp hm with h1 | h1
      · exact hN m h1
      · simp at h1
    rw [h]
  · intro ack m evs t hE hm
    rw [recognizeRealtime, if_neg (by simp [hE])]
    rw [recvResults, hm]
    rfl

/-- Instance of `asr_timeouts_terminal`: first-ack timeout gives `none`, and a
result-free session ending in a receive timeout gives the empty text. -/
theorem asr_timeouts_terminal_inst :
    recognizeRealtime gzToy (fun _ => (none : Option Unit)) (fun _ => none)
        (fun _ => false) (fun _ => (none : Option (ASRResultT Nat))) 0
        [RecvEvent.timeout] = none ∧
    recognizeRealtime gzToy (fun _ => (none : Option Unit)) (fun _ => none)
        (fun _ => false) (fun _ => (none : Option (ASRResultT Nat))) 0
        (RecvEvent.msg [0, 0, 0, 0] :: ([] ++ [RecvEvent.timeout]))
      = some 0 := by
  have h := asr_timeouts_terminal gzToy (fun _ => (none : Option Unit))
    (fun _ => none) (fun _ => false)
    (fun _ => (none : Option (ASRResultT Nat))) 0
  exact ⟨h.1 [], h.2.1 [0, 0, 0, 0] [] (by decide) (fun m hm => rfl)⟩

/-- C8 counterexample: a receive timeout after a partial transcript does not
make the call return "no text" — `recognize_realtime` returns the last
partial transcript (text 5 here), not `None` and not the empty text. -/
theorem asr_timeout_partial_text_returned :
    recognizeRealtime gzToy (fun _ => (none : Option Unit)) (fun _ => none)
        (fun _ => false)
        (fun m => if m = [1] then some ⟨5, false⟩ else none) (0 : Nat)
        [RecvEvent.msg [0, 0, 0, 0], RecvEvent.msg [1], RecvEvent.timeout]
      = some 5 ∧
    recognizeRealtime gzToy (fun _ => (none : Option Unit)) (fun _ => none)
        (fun _ => false)
        (fun m => if m = [1] then some ⟨5, false⟩ else none) (0 : Nat)
        [RecvEvent.msg [0, 0, 0, 0], RecvEvent.msg [1], RecvEvent.timeout]
      ≠ none ∧
    recognizeRealtime gzToy (fun _ => (none : Option Unit)) (fun _ => none)
        (fun _ => false)
        (fun m => if m = [1] then some ⟨5, false⟩ else none) (0 : Nat)
        [RecvEvent.msg [0, 0, 0, 0], RecvEvent.msg [1], RecvEvent.timeout]
      ≠ some 0 := by
  decide

/-- Appending to a full-or-less homogeneous deque keeps it homogeneous. -/
theorem dequeAppend_rep (x : α) (m n : Nat) (hm : m ≤ n) :
    dequeAppend n x (List.replicate m x) = List.replicate (min (m + 1) n) x := by
  unfold dequeAppend
  dsimp only
  rw [show List.replicate m x ++ [x] = List.replicate (m + 1) x from
    (List.replicate_succ' m x).symm]
  simp only [List.length_replicate]
  split
  · next h =>
    rw [List.drop_replicate]
    rw [show m + 1 - (m + 1 - n) = min (m + 1) n by omega]
  · next h =>
    rw [show min (m + 1) n = m + 1 by omega]

/-- Appending a `y` to a deque holding `m` copies of `x` followed by `i`
copies of `y` (not yet full beyond one slot). -/
theorem dequeAppend_mixed (x y : α) (m i n : Nat) (hmi : m + i ≤ n)
    (hi : i + 1 ≤ n) :
    dequeAppend n y (List.replicate m x ++ List.replicate i y)
      = List.replicate (min m (n - (i + 1))) x ++ List.replicate (i + 1) y := by
  unfold dequeAppend
  dsimp only
  rw [List.append_assoc,
    show List.replicate i y ++ [y] = List.replicate (i + 1) y from
      (List.replicate_succ' i y).symm]
  simp only [List.length_append, List.length_replicate]
  split
  · next h =>
    rw [show m + (i + 1) - n = 1 by omega]
    rw [List.drop_append_of_le_length
      (by simp only [List.length_replicate]; omega)]
    rw [List.drop_replicate]
    rw [show m - 1 = min m (n - (i + 1)) by omega]
  · next h =>
    rw [show min m (n - (i + 1)) = m by omega]

/-- `stepFrame` on a silent frame while not yet triggered. -/
theorem stepFrame_silence_untrig (cls : List Nat → Bool) (s : VADState)
    (f : List Nat) (ht : s.triggered = false) (hc : cls f = false) :
    stepFrame cls s f =
      .ok ⟨dequeAppend speech_end_frames (f, false) s.ring, false, s.voiced,
        0, s.silenceCount + 1⟩ := by
  simp [stepFrame, ht, hc, speech_start_frames]

/-- `stepFrame` on a speech frame while not yet triggered, below the onset
threshold. -/
theorem stepFrame_speech_untrig (cls : List Nat → Bool) (s : VADState)
    (f : List Nat) (ht : s.triggered = false) (hc : cls f = true)
    (hlt : s.speechCount + 1 < speech_start_frames) :
    stepFrame cls s f =
      .ok ⟨dequeAppend speech_end_frames (f, true) s.ring, false, s.voiced,
        s.speechCount + 1, 0⟩ := by
  simp only [stepFrame, ht, hc, Bool.false_eq_true, if_false, if_true]
  rw [if_neg (by omega)]

/-- `stepFrame` on the speech frame that reaches the onset threshold: the
recording starts from the ring buffer's frames. -/
theorem stepFrame_trigger (cls : List Nat → Bool) (s : VADState)
    (f : List Nat) (ht : s.triggered = false) (hc : cls f = true)
    (hge : speech_start_frames ≤ s.speechCount + 1) :
    stepFrame cls s f =
      .ok ⟨[], true,
        s.voiced ++ (dequeAppend speech_end_frames (f, true) s.ring).map
          Prod.fst, 0, 0⟩ := by
  simp only [stepFrame, ht, hc, Bool.false_eq_true, if_false, if_true]
  rw [if_pos (by omega)]

/-- `stepFrame` on a speech frame during recording. -/
theorem stepFrame_speech_trig (cls : List Nat → Bool) (s : VADState)
    (f : List Nat) (ht : s.triggered = true) (hc : cls f = true) :
    stepFrame cls s f =
      .ok ⟨dequeAppend speech_end_frames (f, true) s.ring, true,
        s.voiced ++ [f], s.speechCount + 1, 0⟩ := by
  simp [stepFrame, ht, hc, speech_end_frames]

/-- `stepFrame` on a silent frame during recording, below the end
threshold. -/
theorem stepFrame_silence_trig (cls : List Nat → Bool) (s : VADState)
    (f : List Nat) (ht : s.triggered = true) (hc : cls f = false)
    (hlt : s.silenceCount + 1 < speech_end_frames) :
    stepFrame cls s f =
      .ok ⟨dequeAppend speech_end_frames (f, false) s.ring, true,
        s.voiced ++ [f], 0, s.silenceCount + 1⟩ := by
  simp only [stepFrame, ht, hc, Bool.false_eq_true, if_false, if_true]
  rw [if_neg (by omega)]

/-- `stepFrame` on the silent frame that reaches the end threshold: the
recording is returned with the trailing `speech_end_frames` frames removed
(`None` when the trimmed audio is empty). -/
theorem stepFrame_end (cls : List Nat → Bool) (s : VADState)
    (f : List Nat) (ht : s.triggered = true) (hc : cls f = false)
    (hge : speech_end_frames ≤ s.silenceCount + 1) :
    stepFrame cls s f =
      .error
        (if joinFrames (sliceDropLast (s.voiced ++ [f]) speech_end_frames) ≠ []
          then some (joinFrames (sliceDropLast (s.voiced ++ [f])
            speech_end_frames))
          else none) := by
  simp only [stepFrame, ht, hc, Bool.false_eq_true, if_false, if_true]
  rw [if_pos (by omega)]

/-- One non-skipped frame whose step keeps looping. -/
theorem runFrames_cons_ok (cls : List Nat → Bool) (fsz : Nat)
    (s s' : VADState) (f : List Nat) (rest : List (List Nat))
    (hf : ¬f.length < fsz) (hs : stepFrame cls s f = .ok s') :
    runFrames cls fsz s (f :: rest) = runFrames cls fsz s' rest := by
  rw [runFrames, if_neg hf, hs]

/-- One non-skipped frame whose step returns ends the whole loop. -/
theorem runFrames_cons_err (cls : List Nat → Bool) (fsz : Nat)
    (s : VADState) (f : List Nat) (rest : List (List Nat))
    (r : Option (List Nat)) (hf : ¬f.length < fsz)
    (hs : stepFrame cls s f = .error r) :
    runFrames cls fsz s (f :: rest) = .error r := by
  rw [runFrames, if_neg hf, hs]

/-- Phase lemma: silent frames before onset only rotate the ring buffer and
grow the silence counter. -/
theorem runFrames_silence_pre (cls : List Nat → Bool) (fsz : Nat)
    (qF : List Nat) (hq : cls qF = false) (hql : ¬qF.length < fsz) :
    ∀ (n m j : Nat) (V : List (List Nat)) (rest : List (List Nat)),
      m ≤ 20 →
      runFrames cls fsz ⟨List.replicate m (qF, false), false, V, 0, j⟩
          (List.replicate n qF ++ rest)
        = runFrames cls fsz
            ⟨List.replicate (min (m + n) 20) (qF, false), false, V, 0, j + n⟩
            rest := by
  intro n
  induction n with
  | zero =>
    intro m j V rest hm
    simp only [List.replicate_zero, List.nil_append]
    rw [show min (m + 0) 20 = m by omega, Nat.add_zero]
  | succ n ih =>
    intro m j V rest hm
    rw [List.replicate_succ, List.cons_append]
    rw [runFrames_cons_ok cls fsz _ _ _ _ hql
      (stepFrame_silence_untrig cls _ qF rfl hq)]
    dsimp only
    simp only [speech_end_frames]
    rw [dequeAppend_rep (qF, false) m 20 hm]
    rw [ih (min (m + 1) 20) (j + 1) V rest (by omega)]
    rw [show min (min (m + 1) 20 + n) 20 = min (m + (n + 1)) 20 by omega,
      show j + 1 + n = j + (n + 1) by omega]

/-- Phase lemma: up to nine speech frames before onset accumulate in the
speech counter and fill the ring buffer behind the retained pre-roll. -/
theorem runFrames_speech_pre (cls : List Nat → Bool) (fsz : Nat)
    (sF : List Nat) (hs : cls sF = true) (hsl : ¬sF.length < fsz)
    (z : List Nat × Bool) :
    ∀ (i m j : Nat) (V : List (List Nat)) (rest : List (List Nat)),
      i + 1 ≤ 9 → m ≤ 20 →
      runFrames cls fsz ⟨List.replicate m z, false, V, 0, j⟩
          (List.replicate (i + 1) sF ++ rest)
        = runFrames cls fsz
            ⟨List.replicate (min m (20 - (i + 1))) z ++
              List.replicate (i + 1) (sF, true), false, V, i + 1, 0⟩
            rest := by
  intro i
  induction i with
  | zero =>
    intro m j V rest _ hm
    rw [List.replicate_succ, List.replicate_zero, List.cons_append,
      List.nil_append]
    rw [runFrames_cons_ok cls fsz _ _ _ _ hsl
      (stepFrame_speech_untrig cls _ sF rfl hs
        (by simp only [speech_start_frames]; omega))]
    dsimp only
    simp only [speech_end_frames]
    rw [show List.replicate m z = List.replicate m z ++
      List.replicate 0 (sF, true) by simp]
    rw [dequeAppend_mixed z (sF, true) m 0 20 (by omega) (by omega)]
  | succ i ih =>
    intro m j V rest hi hm
    rw [show i + 1 + 1 = (i + 1) + 1 from rfl]
    rw [List.replicate_succ' (i + 1) sF, List.append_assoc]
    rw [ih m j V _ (by omega) hm]
    rw [List.singleton_append]
    rw [runFrames_cons_ok cls fsz _ _ _ _ hsl
      (stepFrame_speech_untrig cls _ sF rfl hs
        (by simp only [speech_start_frames]; omega))]
    dsimp only
    simp only [speech_end_frames]
    rw [dequeAppend_mixed z (sF, true) (min m (20 - (i + 1))) (i + 1) 20
      (by omega) (by omega)]
    rw [show min (min m (20 - (i + 1))) (20 - (i + 1 + 1))
      = min m (20 - (i + 1 + 1)) by omega]

/-- Phase lemma: speech frames during recording append to the recorded audio
and keep the silence counter at zero. -/
theorem runFrames_speech_rec (cls : List Nat → Bool) (fsz : Nat)
    (sF : List Nat) (hs : cls sF = true) (hsl : ¬sF.length < fsz) :
    ∀ (i : Nat) (r : List (List Nat × Bool)) (V : List (List Nat))
      (sc : Nat) (rest : List (List Nat)),
      ∃ r', runFrames cls fsz ⟨r, true, V, sc, 0⟩
          (List.replicate i sF ++ rest)
        = runFrames cls fsz
            ⟨r', true, V ++ List.replicate i sF, sc + i, 0⟩ rest := by
  intro i
  induction i with
  | zero =>
    intro r V sc rest
    exact ⟨r, by simp⟩
  | succ i ih =>
    intro r V sc rest
    rw [List.replicate_succ, List.cons_append]
    rw [runFrames_cons_ok cls fsz _ _ _ _ hsl
      (stepFrame_speech_trig cls _ sF rfl hs)]
    dsimp only
    obtain ⟨r', hr'⟩ := ih (dequeAppend speech_end_frames (sF, true) r)
      (V ++ [sF]) (sc + 1) rest
    refine ⟨r', ?_⟩
    rw [hr']
    rw [show (V ++ [sF]) ++ List.replicate i sF
        = V ++ List.replicate (i + 1) sF by
      rw [List.append_assoc, List.replicate_succ, List.singleton_append]]
    rw [show sc + 1 + i = sc + (i + 1) by omega]
    rfl

/-- Phase lemma: silent frames during recording, while below the end
threshold, append to the recorded audio and grow the silence counter. -/
theorem runFrames_silence_rec (cls : List Nat → Bool) (fsz : Nat)
    (qF : List Nat) (hq : cls qF = false) (hql : ¬qF.length < fsz) :
    ∀ (i j : Nat) (r : List (List Nat × Bool)) (V : List (List Nat))
      (sc : Nat) (rest : List (List Nat)),
      j + i ≤ 19 →
      ∃ r' sc', runFrames cls fsz ⟨r, true, V, sc, j⟩
          (List.replicate i qF ++ rest)
        = runFrames cls fsz
            ⟨r', true, V ++ List.replicate i qF, sc', j + i⟩ rest := by
  intro i
  induction i with
  | zero =>
    intro j r V sc rest _
    exact ⟨r, sc, by simp⟩
  | succ i ih =>
    intro j r V sc rest hj
    rw [List.replicate_succ, List.cons_append]
    rw [runFrames_cons_ok cls fsz _ _ _ _ hql
      (stepFrame_silence_trig cls _ qF rfl hq
        (by simp only [speech_end_frames]; omega))]
    dsimp only
    obtain ⟨r', sc', hr'⟩ := ih (j + 1)
      (dequeAppend speech_end_frames (qF, false) r) (V ++ [qF]) 0 rest
      (by omega)
    refine ⟨r', sc', ?_⟩
    rw [hr']
    rw [show (V ++ [qF]) ++ List.replicate i qF
        = V ++ List.replicate (i + 1) qF by
      rw [List.append_assoc, List.replicate_succ, List.singleton_append]]
    rw [show j + 1 + i = j + (i + 1) by omega]
    rfl

/-- The head run is at most the longest run. -/
theorem leadRun_le_maxRun (p : α → Bool) :
    ∀ l : List α, leadRun p l ≤ maxRun p l
  | [] => Nat.le_refl 0
  | x :: xs => by rw [maxRun]; exact le_max_left _ _

/-- The longest run only grows when an element is prepended. -/
theorem maxRun_cons_le (p : α → Bool) (x : α) (xs : List α) :
    maxRun p xs ≤ maxRun p (x :: xs) := by
  rw [maxRun]; exact le_max_right _ _

/-- A frame stream with no run of ten consecutive speech frames never
triggers the detector and never records anything. -/
theorem runFrames_no_onset (cls : List Nat → Bool) (fsz : Nat) :
    ∀ (frames : List (List Nat)) (s : VADState),
      (∀ f ∈ frames, ¬f.length < fsz) →
      s.triggered = false → s.voiced = [] →
      s.speechCount + leadRun cls frames < 10 →
      maxRun cls frames < 10 →
      ∃ s', runFrames cls fsz s frames = .ok s' ∧
        s'.triggered = false ∧ s'.voiced = [] := by
  intro frames
  induction frames with
  | nil => intro s _ ht hv _ _; exact ⟨s, rfl, ht, hv⟩
  | cons f rest ih =>
    intro s hlen ht hv hlead hmax
    have hf : ¬f.length < fsz := hlen f (by simp)
    have hlen' : ∀ g ∈ rest, ¬g.length < fsz := fun g hg => hlen g (by simp [hg])
    have h1 := leadRun_le_maxRun cls rest
    have h2 := maxRun_cons_le cls f rest
    cases hc : cls f with
    | false =>
      rw [runFrames_cons_ok cls fsz _ _ _ _ hf
        (stepFrame_silence_untrig cls s f ht hc)]
      exact ih _ hlen' rfl hv (by dsimp only; omega) (by omega)
    | true =>
      have hlead' : leadRun cls (f :: rest) = leadRun cls rest + 1 := by
        simp [leadRun, hc]
      rw [hlead'] at hlead
      rw [runFrames_cons_ok cls fsz _ _ _ _ hf
        (stepFrame_speech_untrig cls s f ht hc
          (by simp only [speech_start_frames]; omega))]
      exact ih _ hlen' rfl hv (by dsimp only; omega) (by omega)

/-- A chunk of exactly the configured frame size yields itself as the single
VAD frame. -/
theorem chunkFrames_exact {fsz : Nat} (hfsz : 0 < fsz) (c : List Nat)
    (hc : c.length = fsz) : chunkFrames fsz c = [c] := by
  unfold chunkFrames
  rw [hc, Nat.div_self hfsz]
  rw [show List.range 1 = [0] by simp [List.range_succ]]
  simp only [List.map_cons, List.map_nil, Nat.zero_mul, List.drop_zero]
  rw [List.take_of_length_le (by omega)]

/-- A stream of frame-sized chunks splits into exactly those chunks. -/
theorem flatMap_chunk_exact {fsz : Nat} (hfsz : 0 < fsz) :
    ∀ chunks : List (List Nat), (∀ c ∈ chunks, c.length = fsz) →
      chunks.flatMap (chunkFrames fsz) = chunks := by
  intro chunks
  induction chunks with
  | nil => intro _; rfl
  | cons c rest ih =>
    intro h
    rw [List.flatMap_cons, chunkFrames_exact hfsz c (h c (by simp)),
      ih (fun g hg => h g (by simp [hg]))]
    rfl

/-- C1: for every audio stream made of frame-sized chunks,
`detect_speech_segments` starts a turn only after at least
`speech_start_frames = 10` consecutive frames classified as speech (a stream
with no run of ten speech frames yields no turn), ends the active turn only
after at least `speech_end_frames = 20` consecutive silence frames (with
fewer trailing silence frames the turn is still open at stream end and the
recording is returned untrimmed), and on a silence-ended turn the returned
audio is the recorded frames — ring-buffer pre-roll included — with exactly
the trailing 20 silence frames removed. -/
theorem vad_turn_detection (rawCls : List Nat → Option Bool)
    (frameSize : Nat) (sF qF : List Nat) (hfsz : 0 < frameSize)
    (hsl : sF.length = frameSize) (hql : qF.length = frameSize)
    (hs : isSpeech rawCls frameSize sF = true)
    (hq : isSpeech rawCls frameSize qF = false)
    (a K M M' : Nat) (hK : 10 ≤ K) (hM : 20 ≤ M) (hM' : M' < 20) :
    (∀ chunks : List (List Nat), (∀ c ∈ chunks, c.length = frameSize) →
      maxRun (isSpeech rawCls frameSize) chunks < 10 →
      detectSpeechSegments rawCls frameSize chunks = none) ∧
    detectSpeechSegments rawCls frameSize
        (List.replicate a qF ++ List.replicate K sF ++ List.replicate M qF)
      = some (joinFrames
          (List.replicate (min a 10) qF ++ List.replicate K sF)) ∧
    detectSpeechSegments rawCls frameSize
        (List.replicate a qF ++ List.replicate K sF ++ List.replicate M' qF)
      = some (joinFrames (List.replicate (min a 10) qF ++
          (List.replicate K sF ++ List.replicate M' qF))) := by
  have hsl' : ¬sF.length < frameSize := by omega
  have hql' : ¬qF.length < frameSize := by omega
  have hsf : sF ≠ [] := by
    intro hcon
    rw [hcon] at hsl
    simp at hsl
    omega
  obtain ⟨k2, rfl⟩ : ∃ k2, K = 10 + k2 := ⟨K - 10, by omega⟩
  refine ⟨?_, ?_, ?_⟩
  · intro chunks hlen hmax
    unfold detectSpeechSegments
    rw [flatMap_chunk_exact hfsz chunks hlen]
    obtain ⟨s', hrun, ht', _⟩ := runFrames_no_onset
      (isSpeech rawCls frameSize) frameSize chunks initVAD
      (fun f hf => by rw [hlen f hf]; omega) rfl rfl
      (by
        have h1 := leadRun_le_maxRun (isSpeech rawCls frameSize) chunks
        show 0 + leadRun (isSpeech rawCls frameSize) chunks < 10
        omega)
      hmax
    rw [hrun]
    dsimp only
    rw [if_neg (by simp [ht'])]
  · obtain ⟨m2, rfl⟩ : ∃ m2, M = 20 + m2 := ⟨M - 20, by omega⟩
    have hmem : ∀ c ∈ List.replicate a qF ++ List.replicate (10 + k2) sF ++
        List.replicate (20 + m2) qF, c.length = frameSize := by
      intro c hc
      rcases List.mem_append.mp hc with hc1 | hc2
      · rcases List.mem_append.mp hc1 with hc3 | hc4
        · rw [(List.mem_replicate.mp hc3).2]; exact hql
        · rw [(List.mem_replicate.mp hc4).2]; exact hsl
      · rw [(List.mem_replicate.mp hc2).2]; exact hql
    have hframes :
        List.replicate a qF ++ List.replicate (10 + k2) sF ++
          List.replicate (20 + m2) qF
        = List.replicate a qF ++ (List.replicate 9 sF ++ (sF ::
            (List.replicate k2 sF ++ (List.replicate 19 qF ++ (qF ::
              List.replicate m2 qF))))) := by
      rw [show 10 + k2 = 9 + (1 + k2) by omega,
        show 20 + m2 = 19 + (1 + m2) by omega]
      simp [List.replicate_add, List.append_assoc]
    unfold detectSpeechSegments
    rw [flatMap_chunk_exact hfsz _ hmem, hframes]
    rw [show initVAD
      = (⟨List.replicate 0 (qF, false), false, [], 0, 0⟩ : VADState) from rfl]
    rw [runFrames_silence_pre (isSpeech rawCls frameSize) frameSize qF hq hql'
      a 0 0 [] _ (by omega)]
    rw [show min (0 + a) 20 = min a 20 by omega]
    rw [show (9 : Nat) = 8 + 1 from rfl]
    rw [runFrames_speech_pre (isSpeech rawCls frameSize) frameSize sF hs hsl'
      (qF, false) 8 (min a 20) (0 + a) [] _ (by omega) (by omega)]
    rw [show min (min a 20) (20 - (8 + 1)) = min a 11 by omega]
    rw [runFrames_cons_ok (isSpeech rawCls frameSize) frameSize _ _ _ _ hsl'
      (stepFrame_trigger _ _ sF rfl hs
        (by simp only [speech_start_frames]; omega))]
    dsimp only
    simp only [speech_end_frames]
    rw [dequeAppend_mixed (qF, false) (sF, true) (min a 11) (8 + 1) 20
      (by omega) (by omega)]
    rw [show min (min a 11) (20 - (8 + 1 + 1)) = min a 10 by omega]
    simp only [List.map_append, List.map_replicate, List.nil_append]
    obtain ⟨r3, hr3⟩ := runFrames_speech_rec (isSpeech rawCls frameSize)
      frameSize sF hs hsl' k2 []
      (List.replicate (min a 10) ((qF, false).1) ++
        List.replicate (8 + 1 + 1) ((sF, true).1)) 0
      (List.replicate 19 qF ++ (qF :: List.replicate m2 qF))
    rw [hr3]
    rw [show (List.replicate (min a 10) ((qF, false).1) ++
          List.replicate (8 + 1 + 1) ((sF, true).1)) ++ List.replicate k2 sF
        = List.replicate (min a 10) qF ++ List.replicate (10 + k2) sF by
      rw [List.append_assoc]
      show List.replicate (min a 10) qF ++ _ = _
      rw [← List.replicate_add]]
    obtain ⟨r4, sc4, hr4⟩ := runFrames_silence_rec (isSpeech rawCls frameSize)
      frameSize qF hq hql' 19 0 r3
      (List.replicate (min a 10) qF ++ List.replicate (10 + k2) sF) (0 + k2)
      (qF :: List.replicate m2 qF) (by omega)
    rw [hr4]
    rw [runFrames_cons_err (isSpeech rawCls frameSize) frameSize _ _ _ _ hql'
      (stepFrame_end _ _ qF rfl hq (by simp only [speech_end_frames]; omega))]
    dsimp only
    rw [show ((List.replicate (min a 10) qF ++ List.replicate (10 + k2) sF) ++
          List.replicate 19 qF) ++ [qF]
        = (List.replicate (min a 10) qF ++ List.replicate (10 + k2) sF) ++
          List.replicate 20 qF by
      rw [List.append_assoc, ← List.replicate_succ']]
    have hslice : sliceDropLast
        ((List.replicate (min a 10) qF ++ List.replicate (10 + k2) sF) ++
          List.replicate 20 qF) speech_end_frames
        = List.replicate (min a 10) qF ++ List.replicate (10 + k2) sF := by
      unfold sliceDropLast
      rw [if_neg (by simp [speech_end_frames])]
      simp only [speech_end_frames, List.length_append, List.length_replicate]
      rw [show (min a 10 + (10 + k2) + 20) - 20 = min a 10 + (10 + k2) by omega]
      rw [List.take_left' (by simp)]
    rw [hslice]
    have hne : joinFrames
        (List.replicate (min a 10) qF ++ List.replicate (10 + k2) sF) ≠ [] := by
      intro hcon
      unfold joinFrames at hcon
      rw [List.flatten_eq_nil_iff] at hcon
      exact hsf (hcon sF (List.mem_append.mpr (Or.inr
        (List.mem_replicate.mpr ⟨by omega, rfl⟩))))
    rw [if_pos hne]
  · have hmem : ∀ c ∈ List.replicate a qF ++ List.replicate (10 + k2) sF ++
        List.replicate M' qF, c.length = frameSize := by
      intro c hc
      rcases List.mem_append.mp hc with hc1 | hc2
      · rcases List.mem_append.mp hc1 with hc3 | hc4
        · rw [(List.mem_replicate.mp hc3).2]; exact hql
        · rw [(List.mem_replicate.mp hc4).2]; exact hsl
      · rw [(List.mem_replicate.mp hc2).2]; exact hql
    have hframes :
        List.replicate a qF ++ List.replicate (10 + k2) sF ++
          List.replicate M' qF
        = List.replicate a qF ++ (List.replicate 9 sF ++ (sF ::
            (List.replicate k2 sF ++ (List.replicate M' qF ++ [])))) := by
      rw [show 10 + k2 = 9 + (1 + k2) by omega]
      simp [List.replicate_add, List.append_assoc]
    unfold detectSpeechSegments
    rw [flatMap_chunk_exact hfsz _ hmem, hframes]
    rw [show initVAD
      = (⟨List.replicate 0 (qF, false), false, [], 0, 0⟩ : VADState) from rfl]
    rw [runFrames_silence_pre (isSpeech rawCls frameSize) frameSize qF hq hql'
      a 0 0 [] _ (by omega)]
    rw [show min (0 + a) 20 = min a 20 by omega]
    rw [show (9 : Nat) = 8 + 1 from rfl]
    rw [runFrames_speech_pre (isSpeech rawCls frameSize) frameSize sF hs hsl'
      (qF, false) 8 (min a 20) (0 + a) [] _ (by omega) (by omega)]
    rw [show min (min a 20) (20 - (8 + 1)) = min a 11 by omega]
    rw [runFrames_cons_ok (isSpeech rawCls frameSize) frameSize _ _ _ _ hsl'
      (stepFrame_trigger _ _ sF rfl hs
        (by simp only [speech_start_frames]; omega))]
    dsimp only
    simp only [speech_end_frames]
    rw [dequeAppend_mixed (qF, false) (sF, true) (min a 11) (8 + 1) 20
      (by omega) (by omega)]
    rw [show min (min a 11) (20 - (8 + 1 + 1)) = min a 10 by omega]
    simp only [List.map_append, List.map_replicate, List.nil_append]
    obtain ⟨r3, hr3⟩ := runFrames_speech_rec (isSpeech rawCls frameSize)
      frameSize sF hs hsl' k2 []
      (List.replicate (min a 10) ((qF, false).1) ++
        List.replicate (8 + 1 + 1) ((sF, true).1)) 0
      (List.replicate M' qF ++ [])
    rw [hr3]
    rw [show (List.replicate (min a 10) ((qF, false).1) ++
          List.replicate (8 + 1 + 1) ((sF, true).1)) ++ List.replicate k2 sF
        = List.replicate (min a 10) qF ++ List.replicate (10 + k2) sF by
      rw [List.append_assoc]
      show List.replicate (min a 10) qF ++ _ = _
      rw [← List.replicate_add]]
    obtain ⟨r4, sc4, hr4⟩ := runFrames_silence_rec (isSpeech rawCls frameSize)
      frameSize qF hq hql' M' 0 r3
      (List.replicate (min a 10) qF ++ List.replicate (10 + k2) sF) (0 + k2)
      [] (by omega)
    rw [hr4]
    dsimp only [runFrames]
    rw [if_pos ⟨rfl, by
      intro hcon
      have hlencon := congrArg List.length hcon
      simp only [List.length_append, List.length_replicate,
        List.length_nil] at hlencon
      omega⟩]
    rw [show (List.replicate (min a 10) qF ++ List.replicate (10 + k2) sF) ++
          List.replicate M' qF
        = List.replicate (min a 10) qF ++ (List.replicate (10 + k2) sF ++
          List.replicate M' qF) from List.append_assoc _ _ _]

/-- Instance of `vad_turn_detection` on a concrete synthetic stream. -/
theorem vad_turn_detection_inst :
    detectSpeechSegments (fun c => some (decide (c = [1]))) 1
        (List.replicate 3 [0] ++ List.replicate 10 [1] ++
          List.replicate 20 [0])
      = some (joinFrames (List.replicate (min 3 10) [0] ++
          List.replicate 10 [1])) :=
  (vad_turn_detection (fun c => some (decide (c = [1]))) 1 [1] [0]
    (by decide) (by decide) (by decide) (by decide) (by decide)
    3 10 20 0 (by decide) (by decide) (by decide)).2.1

/-- C4: when, outside the name-elicitation flow, a final transcript contains
an exit keyword from the literal set 退出/再见/拜拜/结束, `_handle_speech`
fetches a farewell reply (`brain.chat("再见", …)`), speaks it with
`interruptible = False`, sets `running` to `False` so the main loop
terminates, and does not make the general conversation call with the user's
text for that turn. -/
theorem exit_keyword_farewell (chatFn : List Char → List Char)
    (userText : List Char) (h : ∃ kw ∈ exitKeywords, kw <:+: userText) :
    (handleSpeech chatFn false false userText).running = false ∧
    (handleSpeech chatFn false false userText).generalChatArg = none ∧
    (handleSpeech chatFn false false userText).farewellFetched = true ∧
    (handleSpeech chatFn false false userText).spoken =
      [(chatFn "再见".data, false)] := by
  have hb : exitKeywords.any (fun kw => decide (kw <:+: userText)) = true := by
    obtain ⟨kw, hkw, hin⟩ := h
    exact List.any_eq_true.2 ⟨kw, hkw, by simpa using hin⟩
  simp [handleSpeech, hb]

/-- Instance of `exit_keyword_farewell` on the transcript "那再见啦". -/
theorem exit_keyword_farewell_inst :
    (handleSpeech (fun _ => "好的".data) false false "那再见啦".data).running
        = false ∧
    (handleSpeech (fun _ => "好的".data) false false "那再见啦".data).generalChatArg
        = none ∧
    (handleSpeech (fun _ => "好的".data) false false "那再见啦".data).farewellFetched
        = true ∧
    (handleSpeech (fun _ => "好的".data) false false "那再见啦".data).spoken =
      [((fun _ : List Char => "好的".data) "再见".data, false)] :=
  exit_keyword_farewell (fun _ => "好的".data) "那再见啦".data
    ⟨"再见".data, by decide, by decide⟩

/-- With a positive frame size, a chunk's barge-in votes are exactly the
classifications of its full frames. -/
theorem chunkVotes_eq (cls : List Nat → Bool) {frameSize : Nat}
    (hfs : frameSize ≠ 0) (c : List Nat) :
    chunkVotes cls frameSize c =
      (((chunkFrames frameSize c).filter cls).length,
        (chunkFrames frameSize c).length) := by
  by_cases hc : c = []
  · simp [chunkVotes, hc, chunkFrames]
  · simp [chunkVotes, hc, hfs]

/-- C5: during playback of an interruptible reply with the echo-cancellation
bridge enabled and a live capture stream, each buffered write is followed by a
barge-in check over the two capture reads split into VAD frames, and
consumption of the synthesis stream stops exactly when the check reports that
at least 60% of the sampled frames are speech; with the bridge disabled the
check never runs, playback is never interrupted and the whole stream is
consumed. -/
theorem barge_in_abort (cls : List Nat → Bool) (frameSize : Nat)
    (captures : Nat → List Nat × List Nat) :
    (∀ (interruptible streamLive : Bool) (chunks : List (List Nat))
        (buf : List Nat) (k : Nat),
      (speakLoop cls frameSize interruptible false streamLive captures
          chunks buf k).checks = 0 ∧
      (speakLoop cls frameSize interruptible false streamLive captures
          chunks buf k).interrupted = false ∧
      (speakLoop cls frameSize interruptible false streamLive captures
          chunks buf k).remaining = []) ∧
    (∀ (c : List Nat) (rest : List (List Nat)) (buf : List Nat) (k : Nat),
      3200 ≤ (buf ++ c).length →
      (bargeInCheck cls frameSize (captures k).1 (captures k).2 = true →
        speakLoop cls frameSize true true true captures (c :: rest) buf k =
          ⟨[buf ++ c], 1, true, rest⟩) ∧
      (bargeInCheck cls frameSize (captures k).1 (captures k).2 = false →
        speakLoop cls frameSize true true true captures (c :: rest) buf k =
          ⟨(buf ++ c) ::
              (speakLoop cls frameSize true true true captures rest []
                (k + 1)).played,
            (speakLoop cls frameSize true true true captures rest []
              (k + 1)).checks + 1,
            (speakLoop cls frameSize true true true captures rest []
              (k + 1)).interrupted,
            (speakLoop cls frameSize true true true captures rest []
              (k + 1)).remaining⟩)) ∧
    (frameSize ≠ 0 → ∀ c1 c2 : List Nat,
      bargeInCheck cls frameSize c1 c2 =
        decide ((chunkFrames frameSize c1 ++ chunkFrames frameSize c2) ≠ [] ∧
          3 * (chunkFrames frameSize c1 ++ chunkFrames frameSize c2).length ≤
            5 * ((chunkFrames frameSize c1 ++
              chunkFrames frameSize c2).filter cls).length)) := by
  refine ⟨?_, ?_, ?_⟩
  · intro interruptible streamLive chunks
    induction chunks with
    | nil => intro buf k; simp [speakLoop]
    | cons c rest ih =>
      intro buf k
      rw [speakLoop]
      dsimp only
      split
      · simpa using ih [] k
      · exact ih (buf ++ c) k
  · intro c rest buf k hlen
    constructor
    · intro hb
      rw [speakLoop]
      dsimp only
      rw [if_pos hlen]
      simp [hb]
    · intro hb
      rw [speakLoop]
      dsimp only
      rw [if_pos hlen]
      simp [hb]
  · intro hfs c1 c2
    unfold bargeInCheck
    rw [chunkVotes_eq cls hfs, chunkVotes_eq cls hfs]
    dsimp only
    split
    · next h0 =>
      have h1 : chunkFrames frameSize c1 ++ chunkFrames frameSize c2 = [] := by
        have := List.length_append (chunkFrames frameSize c1)
          (chunkFrames frameSize c2)
        have hz : (chunkFrames frameSize c1 ++ chunkFrames frameSize c2).length
            = 0 := by omega
        exact List.length_eq_zero.mp hz
      simp [h1]
    · next h0 =>
      have hlen : (chunkFrames frameSize c1 ++ chunkFrames frameSize c2).length
          ≠ 0 := by
        rw [List.length_append]; omega
      have hne : chunkFrames frameSize c1 ++ chunkFrames frameSize c2 ≠ [] :=
        fun hcon => hlen (by simp [hcon])
      simp [hne, List.filter_append]

/-- Instance of `barge_in_abort`: a 3200-byte buffered write followed by a
positive two-read vote aborts playback. -/
theorem barge_in_abort_inst :
    speakLoop (fun _ => true) 2 true true true (fun _ => ([1, 2], [3, 4]))
        [List.replicate 3200 0] [] 0 =
      ⟨[[] ++ List.replicate 3200 0], 1, true, []⟩ :=
  ((barge_in_abort (fun _ => true) 2 (fun _ => ([1, 2], [3, 4]))).2.1
    (List.replicate 3200 0) [] [] 0
    (by rw [List.nil_append, List.length_replicate])).1 (by decide)

end RobotVoice
